/-
Verification of the botkube command-execution gateway and event-filter core.

The Go sources are shallowly embedded: Go strings become `List Char`
(`GoStr`), so that the string surgery done by the sanitizer (prefix tests,
`SplitAfterN`, `TrimFunc`) is fully inductive and executable.  Stateful code
(the process-wide notifier flag and the filter registry) is explicit state
passing.  A Go runtime panic (out-of-range slice index) is modelled as
`Option.none` / a dedicated `panic` constructor.  External process execution
is modelled as a decision: the embedding records *that* the runner is invoked
and with which argument list, never its output.
-/
import Mathlib

/-- Go strings, embedded as their character sequences. -/
abbrev GoStr := List Char

/-- Embed a Lean string literal as a `GoStr`. -/
def gs (s : String) : GoStr := s.toList

/-- Go's `strings.HasPrefix(s, p)` is `goHasPref s p`. -/
def goHasPref : GoStr → GoStr → Bool
  | _, [] => true
  | [], _ :: _ => false
  | c :: s, d :: p => if c = d then goHasPref s p else false

/-- The text after the first occurrence of `sep` in `s`; `none` when `sep`
does not occur.  This is Go's `strings.SplitAfterN(s, sep, 2)[1]`, whose
index access panics (`none`) in the no-occurrence case. -/
def splitAfterFirst (sep : GoStr) : GoStr → Option GoStr
  | [] => none
  | c :: rest =>
    if goHasPref (c :: rest) sep then some ((c :: rest).drop sep.length)
    else splitAfterFirst sep rest

/-- The quote characters trimmed by the executor's `trimQuotes`. -/
def isQuote (c : Char) : Bool := c = '\'' || c = '"'

/-- Remove the maximal run of leading quote characters. -/
def trimLeftQ : GoStr → GoStr
  | [] => []
  | c :: rest => if isQuote c then trimLeftQ rest else c :: rest

/-- Go's `strings.TrimFunc(s, isQuote)`: every leading and trailing quote
character is removed (maximal runs at both ends). -/
def trimQuotes (s : GoStr) : GoStr := (trimLeftQ (trimLeftQ s).reverse).reverse

/-- Remove at most one leading quote character. -/
def dropOneQuote : GoStr → GoStr
  | [] => []
  | c :: rest => if isQuote c then rest else c :: rest

/-- Quote trimming as the specification words it: a single layer of
surrounding quotes is removed, one character at each end at most. -/
def trimOneQuoteLayer_spec (s : GoStr) : GoStr :=
  (dropOneQuote (dropOneQuote s).reverse).reverse

/-- ASCII whitespace recognised by the tokenizer model. -/
def isSpaceChar (c : Char) : Bool := c = ' ' || c = '\t' || c = '\n' || c = '\r'

/-- Accumulating worker for `fields`. -/
def fieldsAux : GoStr → GoStr → List GoStr
  | [], acc => if acc.isEmpty then [] else [acc.reverse]
  | c :: rest, acc =>
    if isSpaceChar c then
      if acc.isEmpty then fieldsAux rest [] else acc.reverse :: fieldsAux rest []
    else fieldsAux rest (c :: acc)

/-- Go's `strings.Fields`: split around maximal runs of whitespace; a
whitespace-only input yields the empty token list. -/
def fields (s : GoStr) : List GoStr := fieldsAux s []

/-- Accumulating worker for `splitColon`. -/
def splitColonAux : GoStr → GoStr → List GoStr
  | [], acc => [acc.reverse]
  | c :: rest, acc =>
    if c = ':' then acc.reverse :: splitColonAux rest [] else splitColonAux rest (c :: acc)

/-- Go's `strings.Split(s, ":")`: never the empty list. -/
def splitColon (s : GoStr) : List GoStr := splitColonAux s []

/-- Substring test: does `sub` occur contiguously inside `s`? -/
def containsSub (s sub : GoStr) : Bool :=
  match s with
  | [] => sub.isEmpty
  | c :: rest => goHasPref (c :: rest) sub || containsSub rest sub

/-- The kubectl verb allowlist (`validKubectlCommands` in the source). -/
def kubectlVerbs : List GoStr :=
  [gs "api-resources", gs "api-versions", gs "cluster-info", gs "describe", gs "diff",
   gs "explain", gs "get", gs "logs", gs "top", gs "auth"]

/-- Go map lookup `validKubectlCommands[s]` (absent keys read `false`). -/
def validKubectlCommands (s : GoStr) : Bool := decide (s ∈ kubectlVerbs)

/-- Go map lookup `validNotifierCommand[s]`. -/
def validNotifierCommand (s : GoStr) : Bool := decide (s = gs "notifier")

/-- Go map lookup `validPingCommand[s]`. -/
def validPingCommand (s : GoStr) : Bool := decide (s = gs "ping")

/-- Go map lookup `validVersionCommand[s]`. -/
def validVersionCommand (s : GoStr) : Bool := decide (s = gs "version")

/-- Go map lookup `validFilterCommand[s]`. -/
def validFilterCommand (s : GoStr) : Bool := decide (s = gs "filters")

def ClusterFlag : GoStr := gs "--cluster-name"

def FollowFlag : GoStr := gs "--follow"

def AbbrFollowFlag : GoStr := gs "-f"

def WatchFlag : GoStr := gs "--watch"

def AbbrWatchFlag : GoStr := gs "-w"

/-- The separator `ClusterFlag.String() + "="` handed to `SplitAfterN`. -/
def ClusterFlagEq : GoStr := ClusterFlag ++ gs "="

def notifierStartMsg (c : GoStr) : GoStr :=
  gs "Brace yourselves, notifications are coming from cluster '" ++ c ++ gs "'."

def notifierStopMsg (c : GoStr) : GoStr :=
  gs "Sure! I won't send you notifications from cluster '" ++ c ++ gs "' anymore."

def unsupportedCmdMsg : GoStr :=
  gs "Command not supported. Please run /botkubehelp to see supported commands."

def incompleteCmdMsg : GoStr :=
  gs "You missed to pass options for the command. Please run /botkubehelp to see command options."

def kubectlDisabledMsg (c : GoStr) : GoStr :=
  gs "Sorry, the admin hasn't given me the permission to execute kubectl command on cluster '" ++ c ++ gs "'."

def filterNameMissingMsg (lst : GoStr) : GoStr :=
  gs "You forgot to pass filter name. Please pass one of the following valid filters:\n\n" ++ lst

def filterEnabledMsg (f c : GoStr) : GoStr :=
  gs "I have enabled '" ++ f ++ gs "' filter on '" ++ c ++ gs "' cluster."

def filterDisabledMsg (f c : GoStr) : GoStr :=
  gs "Done. I won't run '" ++ f ++ gs "' filter on '" ++ c ++ gs "' cluster."

/-- Outcome of `runKubectlCommand` up to (but not including) process
execution: `panic` is a Go runtime panic escaping the function, `empty` is
the silent `""` return with the runner not invoked, and `run finalArgs`
records that the process runner is invoked with `finalArgs`. -/
inductive KubectlDecision where
  | panic
  | empty
  | run (finalArgs : List GoStr)
deriving DecidableEq

/-- The token loop of `runKubectlCommand`, carrying the Go loop's
`isClusterNameArg` flag: when it is set the current token (the value of a
two-token cluster flag) is skipped.  The Go `index == len(args)-1` test is
the empty-tail case of the lookahead, and `args[index+1]` is the lookahead
`v`.  `.panic` models the out-of-range index `[1]` of `SplitAfterN` applied
to a `--cluster-name`-prefixed token with no `--cluster-name=` inside. -/
def sanitizeLoop (clusterName : GoStr) : List GoStr → Bool → Bool → KubectlDecision
  | [], isAuthChannel, _ => if isAuthChannel then .run [] else .empty
  | arg :: rest, isAuthChannel, isClusterNameArg =>
    if isClusterNameArg then sanitizeLoop clusterName rest isAuthChannel false
    else if arg = AbbrFollowFlag ∨ goHasPref arg FollowFlag then
      sanitizeLoop clusterName rest isAuthChannel false
    else if arg = AbbrWatchFlag ∨ goHasPref arg WatchFlag then
      sanitizeLoop clusterName rest isAuthChannel false
    else if goHasPref arg ClusterFlag then
      if arg = ClusterFlag then
        match rest with
        | [] => .empty
        | v :: _ =>
          if trimQuotes v ≠ clusterName then .empty
          else sanitizeLoop clusterName rest true true
      else
        match splitAfterFirst ClusterFlagEq arg with
        | none => .panic
        | some value =>
          if trimQuotes value ≠ clusterName then .empty
          else sanitizeLoop clusterName rest true false
    else
      match sanitizeLoop clusterName rest isAuthChannel false with
      | .run finalArgs => .run (arg :: finalArgs)
      | d => d

/-- Modelled from the spec: `utils.DeleteDoubleWhiteSpace` (package utils,
not among the sources) collapses the whitespace-derived empty tokens out of
the token list (spec §4.3 step 3). -/
def deleteDoubleWhiteSpace (args : List GoStr) : List GoStr :=
  args.filter (fun a => !a.isEmpty)

/-- Decision part of `runKubectlCommand`: `-n default` is prepended
unconditionally, empty tokens are collapsed, then the sanitizing loop runs. -/
def runKubectlDecision (args : List GoStr) (clusterName : GoStr) (isAuthChannel : Bool) :
    KubectlDecision :=
  sanitizeLoop clusterName (gs "-n" :: gs "default" :: deleteDoubleWhiteSpace args)
    isAuthChannel false

/-- Outcome of `runVersionCommand` up to process execution: `proceed` records
that `findBotKubeVersion` (an external process invocation) is reached. -/
inductive VersionDecision where
  | panic
  | empty
  | proceed
deriving DecidableEq

/-- The flag loop of `runVersionCommand` (slack.go 657-677), carrying the Go
loop's `checkFlag` state.  Values are compared raw, without quote trimming;
a trailing two-token `--cluster-name` leaves `checkFlag` set and falls
through to the version lookup. -/
def versionLoop (clusterName : GoStr) : List GoStr → Bool → VersionDecision
  | [], _ => .proceed
  | arg :: rest, checkFlag =>
    if checkFlag then
      if arg ≠ clusterName then .empty else versionLoop clusterName rest false
    else if goHasPref arg ClusterFlag then
      if arg = ClusterFlag then versionLoop clusterName rest true
      else
        match splitAfterFirst ClusterFlagEq arg with
        | none => .panic
        | some value => if value ≠ clusterName then .empty else versionLoop clusterName rest false
    else versionLoop clusterName rest false

/-- Modelled from the spec: one entry of the filter registry (package
filterengine is not among the sources).  `name` is the filter's identity
(`reflect.TypeOf(k).Name()`), `description` its `Describe()` text; the
registry is kept as a list in registration order, since spec §3 states that
insertion order is preserved. -/
structure FilterEntry where
  name : GoStr
  enabled : Bool
  description : GoStr
deriving DecidableEq

/-- Go's `%v` rendering of a bool. -/
def boolStr (b : Bool) : GoStr := if b then gs "true" else gs "false"

/-- One row written by the loop of `makeFiltersList`.  The tabwriter's
column padding is abstracted: fields appear tab-separated, in writing
order, one row per registered filter. -/
def filterRow (f : FilterEntry) : GoStr :=
  f.name ++ gs "\t" ++ boolStr f.enabled ++ gs "\t" ++ f.description ++ gs "\n"

/-- The header row written by `makeFiltersList` before the loop. -/
def filtersHeader : GoStr := gs "FILTER\tENABLED\tDESCRIPTION\n"

/-- Listing `makeFiltersList`: header, then one row per entry of `ShowFilters()`,
in the order the registry yields them (the source applies no sorting). -/
def makeFiltersList (reg : List FilterEntry) : GoStr :=
  reg.foldl (fun buf f => buf ++ filterRow f) filtersHeader

/-- Modelled from the spec: `DefaultFilterEngine.SetFilter` (package
filterengine, not among the sources) — `setEnabled(identity, bool)` fails
with a NotFoundError, surfaced as text, if the identity is absent, and
otherwise updates that filter's enabled flag in place. -/
def SetFilter (reg : List FilterEntry) (name : GoStr) (flag : Bool) :
    Except GoStr (List FilterEntry) :=
  if reg.any (fun f => decide (f.name = name)) then
    .ok (reg.map fun f => if f.name = name then { f with enabled := flag } else f)
  else
    .error (gs "invalid filter name " ++ name)

/-- The process-wide mutable state the executor reaches globally:
`config.Notify` and the filter registry. -/
structure GlobalState where
  notify : Bool
  registry : List FilterEntry
deriving DecidableEq

/-- What one `Execute` call resolves to.  `text` is a fully determined
response; `kubectl finalArgs` records that the process runner is invoked
with `finalArgs`; `ping` and `version` record that the external version
lookup is reached; `showConfig` records that the configuration file is
read, redacted and rendered.  The surrounding `Option` is `none` on a Go
runtime panic. -/
inductive ExecDecision where
  | text (s : GoStr)
  | kubectl (finalArgs : List GoStr)
  | ping
  | version
  | showConfig
deriving DecidableEq

/-- Handler `runNotifierCommand` (slack.go 553-584): unauthorized channels get the
silent empty response before any state is touched. -/
def runNotifierCommand (args : List GoStr) (clusterName : GoStr) (isAuthChannel : Bool)
    (st : GlobalState) : ExecDecision × GlobalState :=
  if isAuthChannel = false then (.text (gs ""), st)
  else match args with
  | [] => (.text incompleteCmdMsg, st)
  | [_] => (.text incompleteCmdMsg, st)
  | _ :: a1 :: _ =>
    if a1 = gs "start" then (.text (notifierStartMsg clusterName), { st with notify := true })
    else if a1 = gs "stop" then (.text (notifierStopMsg clusterName), { st with notify := false })
    else if a1 = gs "status" then
      if st.notify = false then
        (.text (gs "Notifications are off for cluster '" ++ clusterName ++ gs "'"), st)
      else
        (.text (gs "Notifications are on for cluster '" ++ clusterName ++ gs "'"), st)
    else if a1 = gs "showconfig" then (.showConfig, st)
    else (.text unsupportedCmdMsg, st)

/-- Handler `runFilterCommand` (slack.go 587-623): unauthorized channels get the
silent empty response before any registry access. -/
def runFilterCommand (args : List GoStr) (clusterName : GoStr) (isAuthChannel : Bool)
    (st : GlobalState) : ExecDecision × GlobalState :=
  if isAuthChannel = false then (.text (gs ""), st)
  else match args with
  | [] => (.text incompleteCmdMsg, st)
  | [_] => (.text incompleteCmdMsg, st)
  | _ :: a1 :: rest2 =>
    if a1 = gs "list" then (.text (makeFiltersList st.registry), st)
    else if a1 = gs "enable" then
      match rest2 with
      | [] => (.text (filterNameMissingMsg (makeFiltersList st.registry)), st)
      | a2 :: _ =>
        match SetFilter st.registry a2 true with
        | .error e => (.text e, st)
        | .ok reg2 => (.text (filterEnabledMsg a2 clusterName), { st with registry := reg2 })
    else if a1 = gs "disable" then
      match rest2 with
      | [] => (.text (filterNameMissingMsg (makeFiltersList st.registry)), st)
      | a2 :: _ =>
        match SetFilter st.registry a2 false with
        | .error e => (.text e, st)
        | .ok reg2 => (.text (filterDisabledMsg a2 clusterName), { st with registry := reg2 })
    else (.text unsupportedCmdMsg, st)

/-- The executor record, fields as in the source. -/
structure DefaultExecutor where
  Message : GoStr
  AllowKubectl : Bool
  ClusterName : GoStr
  ChannelName : GoStr
  IsAuthChannel : Bool
deriving DecidableEq

/-- Dispatch `Execute` (slack.go 457-486) up to external effects.  `fields` of an
empty or whitespace-only message is the empty token list, on which the
source reads `args[0]` — an out-of-range index, modelled as `none`. -/
def ExecuteD (e : DefaultExecutor) (st : GlobalState) :
    Option (ExecDecision × GlobalState) :=
  match fields e.Message with
  | [] => none
  | a0 :: rest =>
    if validKubectlCommands a0 then
      if e.AllowKubectl = false then some (.text (kubectlDisabledMsg e.ClusterName), st)
      else
        match runKubectlDecision (a0 :: rest) e.ClusterName e.IsAuthChannel with
        | .panic => none
        | .empty => some (.text (gs ""), st)
        | .run finalArgs => some (.kubectl finalArgs, st)
    else if validNotifierCommand a0 then
      some (runNotifierCommand (a0 :: rest) e.ClusterName e.IsAuthChannel st)
    else if validPingCommand a0 then
      match versionLoop e.ClusterName (a0 :: rest) false with
      | .panic => none
      | .empty => some (.text (gs ""), st)
      | .proceed => some (.ping, st)
    else if validVersionCommand a0 then
      match versionLoop e.ClusterName (a0 :: rest) false with
      | .panic => none
      | .empty => some (.text (gs ""), st)
      | .proceed => some (.version, st)
    else if validFilterCommand a0 then
      some (runFilterCommand (a0 :: rest) e.ClusterName e.IsAuthChannel st)
    else if e.IsAuthChannel then some (.text unsupportedCmdMsg, st)
    else some (.text (gs ""), st)

/-- Event types (`config.EventType`) used by the core. -/
inductive EventKindType where
  | create
  | update
  | delete
  | error
  | warning
  | info
  | normal
deriving DecidableEq

/-- Severities (`events.Level`). -/
inductive EventLevel where
  | info
  | warn
  | debug
  | error
  | critical
deriving DecidableEq

/-- Go struct `events.Event`.  Field names follow the source; `Type` and `Level`
are reserved words here, so those two fields are spelled `EvType` and
`EvLevel`. -/
structure Event where
  Kind : GoStr
  Name : GoStr
  Namespace : GoStr
  Cluster : GoStr
  Channel : GoStr
  Title : GoStr
  Reason : GoStr
  Action : GoStr
  Messages : List GoStr
  Recommendations : List GoStr
  Warnings : List GoStr
  TimeStamp : Int
  EvType : EventKindType
  EvLevel : EventLevel
deriving DecidableEq

/-- A pod container: the two fields the image-tag filter reads. -/
structure Container where
  Name : GoStr
  Image : GoStr
deriving DecidableEq

/-- The pod spec fields scanned by the image-tag filter. -/
structure PodSpec where
  InitContainers : List Container
  Containers : List Container
deriving DecidableEq

/-- A `apiV1.Pod` as the filter sees it. -/
structure Pod where
  Spec : PodSpec
deriving DecidableEq

/-- The untyped `object interface{}` handed to a filter: either a `*Pod`
(type assertion succeeds) or anything else (assertion fails). -/
inductive K8sObject where
  | pod (p : Pod)
  | other
deriving DecidableEq

/-- The image check of `ImageTagChecker.Run`: `strings.Split(image, ":")`
has a single part (no colon), or its second part is literally `latest`.
The `images[1]` access is guarded by short-circuit evaluation, so no panic
is possible here. -/
def latestTagIssue (image : GoStr) : Bool :=
  match splitColon image with
  | [_] => true
  | _ :: t :: _ => decide (t = gs "latest")
  | [] => false

/-- The recommendation string appended for an offending init-container. -/
def initContainerRec (c : Container) : GoStr :=
  gs ":latest tag used in image '" ++ c.Image ++ gs "' of initContainer '" ++ c.Name ++
    gs "' should be avoided.\n"

/-- The recommendation string appended for an offending container. -/
def containerRec (c : Container) : GoStr :=
  gs ":latest tag used in image '" ++ c.Image ++ gs "' of Container '" ++ c.Name ++
    gs "' should be avoided.\n"

/-- Filter body `ImageTagChecker.Run`: a no-op unless the event is a Pod create event
and the object really is a Pod; otherwise appends one recommendation per
offending init-container, then per offending container.  The Go code
mutates `*event`; the model returns the updated event. -/
def ImageTagCheckerRun (object : K8sObject) (event : Event) : Event :=
  if event.Kind ≠ gs "Pod" ∨ event.EvType ≠ EventKindType.create then event
  else match object with
  | .other => event
  | .pod podObj =>
    let ev1 := podObj.Spec.InitContainers.foldl
      (fun e ic =>
        if latestTagIssue ic.Image then
          { e with Recommendations := e.Recommendations ++ [initContainerRec ic] }
        else e)
      event
    podObj.Spec.Containers.foldl
      (fun e c =>
        if latestTagIssue c.Image then
          { e with Recommendations := e.Recommendations ++ [containerRec c] }
        else e)
      ev1

/-- Modelled from the spec: the slack section of the configuration document
(package config is not among the sources; spec §6 requires at least a chat
auth token field). -/
structure SlackCfg where
  Token : GoStr
  Channel : GoStr
deriving DecidableEq

/-- Modelled from the spec: the search-backend section, with its credential
field. -/
structure ElasticSearchCfg where
  Password : GoStr
  Server : GoStr
deriving DecidableEq

/-- Modelled from the spec: the communications section grouping the two. -/
structure CommunicationsCfg where
  Slack : SlackCfg
  ElasticSearch : ElasticSearchCfg
deriving DecidableEq

/-- Modelled from the spec: the configuration document. -/
structure Config where
  Communications : CommunicationsCfg
deriving DecidableEq

/-- Modelled from the spec: `yaml.Marshal` of the configuration (YAML
rendering is an excluded external collaborator); each schema field becomes
a labelled line, labels in lower case as YAML keys. -/
def marshalConfig (c : Config) : GoStr :=
  gs "communications:\n  slack:\n    token: " ++ c.Communications.Slack.Token ++
  gs "\n    channel: " ++ c.Communications.Slack.Channel ++
  gs "\n  elasticsearch:\n    password: " ++ c.Communications.ElasticSearch.Password ++
  gs "\n    server: " ++ c.Communications.ElasticSearch.Server ++ gs "\n"

/-- Handler `showControllerConfig` (slack.go 679-712) after a successful read of the
parsed configuration: the slack token and the elasticsearch password are
zeroed, then the document is rendered. -/
def showControllerConfig (c : Config) : GoStr :=
  marshalConfig
    { c with
      Communications.Slack.Token := []
      Communications.ElasticSearch.Password := [] }

/-- Rebuild a configuration with given secret fields; all other fields kept. -/
def setSecrets (c : Config) (t p : GoStr) : Config :=
  { c with
    Communications.Slack.Token := t
    Communications.ElasticSearch.Password := p }

theorem goHasPref_append_self (p v : GoStr) : goHasPref (p ++ v) p = true := by
  induction p with
  | nil => cases v <;> simp [goHasPref]
  | cons c cs ih => simp [goHasPref, ih]

theorem goHasPref_append_left (c v p : GoStr) (h : p.length ≤ c.length) :
    goHasPref (c ++ v) p = goHasPref c p := by
  induction p generalizing c with
  | nil =>
    cases c with
    | nil => simp [goHasPref]
    | cons b cs => simp [goHasPref]
  | cons a ps ih =>
    cases c with
    | nil => simp at h
    | cons b cs =>
      simp only [List.cons_append, goHasPref]
      by_cases hab : b = a
      · simp only [if_pos hab]
        exact ih cs (by simpa using h)
      · simp [hab]

theorem splitAfterFirst_append_self (sep v : GoStr) (h : sep ≠ []) :
    splitAfterFirst sep (sep ++ v) = some v := by
  cases sep with
  | nil => exact absurd rfl h
  | cons c cs =>
    have h1 : goHasPref (c :: (cs ++ v)) (c :: cs) = true := by
      have h0 := goHasPref_append_self (c :: cs) v
      simpa using h0
    have h2 : (c :: (cs ++ v)).drop (c :: cs).length = v := by
      have h0 := List.drop_left (c :: cs) v
      simp only [List.cons_append] at h0
      exact h0
    simp [splitAfterFirst, h1, h2]

theorem ne_of_length_ne {a b : GoStr} (h : a.length ≠ b.length) : a ≠ b :=
  fun e => h (by rw [e])

/-- The tokens the sanitizing loop forwards unchanged: everything that is
not dropped as a follow/watch flag (cluster-flag tokens are handled
separately). -/
def keepArgs (l : List GoStr) : List GoStr :=
  l.filter fun a =>
    !(decide (a = AbbrFollowFlag) || goHasPref a FollowFlag ||
      decide (a = AbbrWatchFlag) || goHasPref a WatchFlag)

theorem keepArgs_cons_drop (a : GoStr) (l : List GoStr)
    (h : (a = AbbrFollowFlag ∨ goHasPref a FollowFlag = true) ∨
         (a = AbbrWatchFlag ∨ goHasPref a WatchFlag = true)) :
    keepArgs (a :: l) = keepArgs l := by
  have hb : (!(decide (a = AbbrFollowFlag) || goHasPref a FollowFlag ||
      decide (a = AbbrWatchFlag) || goHasPref a WatchFlag)) = false := by
    rcases h with (h | h) | (h | h) <;> simp [h]
  simp only [keepArgs, List.filter_cons]
  rw [hb]
  simp

theorem keepArgs_cons_keep (a : GoStr) (l : List GoStr)
    (h1 : ¬(a = AbbrFollowFlag ∨ goHasPref a FollowFlag = true))
    (h2 : ¬(a = AbbrWatchFlag ∨ goHasPref a WatchFlag = true)) :
    keepArgs (a :: l) = a :: keepArgs l := by
  push_neg at h1 h2
  have b1 : decide (a = AbbrFollowFlag) = false := decide_eq_false h1.1
  have b2 : goHasPref a FollowFlag = false := by simpa using h1.2
  have b3 : decide (a = AbbrWatchFlag) = false := decide_eq_false h2.1
  have b4 : goHasPref a WatchFlag = false := by simpa using h2.2
  have hb : (!(decide (a = AbbrFollowFlag) || goHasPref a FollowFlag ||
      decide (a = AbbrWatchFlag) || goHasPref a WatchFlag)) = true := by
    simp [b1, b2, b3, b4]
  simp only [keepArgs, List.filter_cons]
  rw [hb]
  simp

theorem sanitizeLoop_append_clean (c : GoStr) (l rest : List GoStr) (auth : Bool)
    (hl : ∀ a ∈ l, goHasPref a ClusterFlag = false) :
    sanitizeLoop c (l ++ rest) auth false =
      match sanitizeLoop c rest auth false with
      | .run fa => .run (keepArgs l ++ fa)
      | d => d := by
  induction l with
  | nil =>
    simp only [List.nil_append, keepArgs, List.filter_nil]
    cases sanitizeLoop c rest auth false <;> simp
  | cons a t ih =>
    have ha : goHasPref a ClusterFlag = false := hl a (List.mem_cons_self a t)
    have ht : ∀ x ∈ t, goHasPref x ClusterFlag = false :=
      fun x hx => hl x (List.mem_cons_of_mem a hx)
    by_cases h1 : a = AbbrFollowFlag ∨ goHasPref a FollowFlag = true
    · rw [List.cons_append]
      simp only [sanitizeLoop]
      rw [if_neg (by simp), if_pos h1, ih ht, keepArgs_cons_drop a t (Or.inl h1)]
    · by_cases h2 : a = AbbrWatchFlag ∨ goHasPref a WatchFlag = true
      · rw [List.cons_append]
        simp only [sanitizeLoop]
        rw [if_neg (by simp), if_neg h1, if_pos h2, ih ht, keepArgs_cons_drop a t (Or.inr h2)]
      · rw [List.cons_append]
        simp only [sanitizeLoop]
        rw [if_neg (by simp), if_neg h1, if_neg h2, if_neg (by simp [ha]), ih ht,
          keepArgs_cons_keep a t h1 h2]
        cases sanitizeLoop c rest auth false <;> simp

theorem sanitizeLoop_clean_run (c : GoStr) (r : List GoStr)
    (hr : ∀ a ∈ r, goHasPref a ClusterFlag = false) :
    sanitizeLoop c r true false = .run (keepArgs r) := by
  have h := sanitizeLoop_append_clean c r [] true hr
  simpa [sanitizeLoop] using h

theorem sanitizeLoop_clean_unauth (c : GoStr) (args : List GoStr)
    (h : ∀ a ∈ args, goHasPref a ClusterFlag = false) :
    sanitizeLoop c args false false = .empty := by
  have h2 := sanitizeLoop_append_clean c args [] false h
  simpa [sanitizeLoop] using h2

theorem ddws_of_nonempty (l : List GoStr) (h : ∀ a ∈ l, a ≠ []) :
    deleteDoubleWhiteSpace l = l := by
  induction l with
  | nil => rfl
  | cons a t ih =>
    have ha : (!a.isEmpty) = true := by
      cases a with
      | nil => exact absurd rfl (h [] (by simp))
      | cons c cs => rfl
    have ht := ih fun x hx => h x (List.mem_cons_of_mem a hx)
    simp only [deleteDoubleWhiteSpace] at ht ⊢
    simp only [List.filter_cons]
    rw [ha]
    simp [ht]

theorem sanitizeLoop_eqflag_cons (c v : GoStr) (rest : List GoStr) (auth : Bool) :
    sanitizeLoop c ((ClusterFlagEq ++ v) :: rest) auth false =
      if trimQuotes v ≠ c then .empty else sanitizeLoop c rest true false := by
  have l15 : ClusterFlagEq.length = 15 := by decide
  have hlen : (ClusterFlagEq ++ v).length = 15 + v.length := by
    simp [List.length_append, l15]
  have e1 : (ClusterFlagEq ++ v) ≠ AbbrFollowFlag := by
    apply ne_of_length_ne
    rw [hlen, show AbbrFollowFlag.length = 2 from by decide]
    omega
  have e2 : (ClusterFlagEq ++ v) ≠ AbbrWatchFlag := by
    apply ne_of_length_ne
    rw [hlen, show AbbrWatchFlag.length = 2 from by decide]
    omega
  have e3 : (ClusterFlagEq ++ v) ≠ ClusterFlag := by
    apply ne_of_length_ne
    rw [hlen, show ClusterFlag.length = 14 from by decide]
    omega
  have p1 : goHasPref (ClusterFlagEq ++ v) FollowFlag = false := by
    rw [goHasPref_append_left ClusterFlagEq v FollowFlag (by decide)]
    decide
  have p2 : goHasPref (ClusterFlagEq ++ v) WatchFlag = false := by
    rw [goHasPref_append_left ClusterFlagEq v WatchFlag (by decide)]
    decide
  have p3 : goHasPref (ClusterFlagEq ++ v) ClusterFlag = true := by
    rw [goHasPref_append_left ClusterFlagEq v ClusterFlag (by decide)]
    decide
  have sp : splitAfterFirst ClusterFlagEq (ClusterFlagEq ++ v) = some v :=
    splitAfterFirst_append_self _ _ (by decide)
  simp only [sanitizeLoop]
  rw [if_neg (by simp), if_neg (by simp [e1, p1]), if_neg (by simp [e2, p2]), if_pos p3,
    if_neg e3, sp]

theorem sanitizeLoop_flag_cons (c v : GoStr) (rest : List GoStr) (auth : Bool) :
    sanitizeLoop c (ClusterFlag :: v :: rest) auth false =
      if trimQuotes v ≠ c then .empty else sanitizeLoop c rest true false := by
  have dg1 : goHasPref ClusterFlag FollowFlag = false := by decide
  have dg2 : goHasPref ClusterFlag WatchFlag = false := by decide
  have dg3 : goHasPref ClusterFlag ClusterFlag = true := by decide
  have de1 : ClusterFlag ≠ AbbrFollowFlag := by decide
  have de2 : ClusterFlag ≠ AbbrWatchFlag := by decide
  by_cases ht : trimQuotes v ≠ c
  · simp only [sanitizeLoop]
    simp [ht, dg1, dg2, dg3, de1, de2]
  · have ht2 : trimQuotes v = c := not_not.mp ht
    simp only [sanitizeLoop]
    simp [ht2, dg1, dg2, dg3, de1, de2]

theorem sanitizeLoop_run_clean_aux (c : GoStr) :
    ∀ (n : Nat) (args : List GoStr) (auth flagArg : Bool) (fa : List GoStr),
      args.length ≤ n → sanitizeLoop c args auth flagArg = .run fa →
      ∀ a ∈ fa, ¬(a = AbbrFollowFlag ∨ goHasPref a FollowFlag = true) ∧
                ¬(a = AbbrWatchFlag ∨ goHasPref a WatchFlag = true) := by
  intro n
  induction n with
  | zero =>
    intro args auth flagArg fa hlen hh a ha
    have hnil : args = [] := List.length_eq_zero.mp (Nat.le_zero.mp hlen)
    subst hnil
    simp only [sanitizeLoop] at hh
    cases auth with
    | false => simp at hh
    | true =>
      rw [if_pos rfl] at hh
      cases hh
      simp at ha
  | succ n ihn =>
    intro args auth flagArg fa hlen hh a ha
    cases args with
    | nil =>
      simp only [sanitizeLoop] at hh
      cases auth with
      | false => simp at hh
      | true =>
        rw [if_pos rfl] at hh
        cases hh
        simp at ha
    | cons arg rest =>
      have hlen2 : rest.length ≤ n := by
        simp only [List.length_cons] at hlen
        omega
      simp only [sanitizeLoop] at hh
      cases flagArg with
      | true =>
        rw [if_pos rfl] at hh
        exact ihn rest auth false fa hlen2 hh a ha
      | false =>
        rw [if_neg (by simp)] at hh
        by_cases h1 : arg = AbbrFollowFlag ∨ goHasPref arg FollowFlag = true
        · rw [if_pos h1] at hh
          exact ihn rest auth false fa hlen2 hh a ha
        · rw [if_neg h1] at hh
          by_cases h2 : arg = AbbrWatchFlag ∨ goHasPref arg WatchFlag = true
          · rw [if_pos h2] at hh
            exact ihn rest auth false fa hlen2 hh a ha
          · rw [if_neg h2] at hh
            by_cases h3 : goHasPref arg ClusterFlag = true
            · rw [if_pos h3] at hh
              by_cases h4 : arg = ClusterFlag
              · rw [if_pos h4] at hh
                cases rest with
                | nil => simp at hh
                | cons v rest2 =>
                  by_cases h5 : trimQuotes v = c
                  · simp [h5] at hh
                    exact ihn (v :: rest2) true true fa hlen2 hh a ha
                  · simp [h5] at hh
              · rw [if_neg h4] at hh
                cases hsp : splitAfterFirst ClusterFlagEq arg with
                | none =>
                  rw [hsp] at hh
                  simp at hh
                | some value =>
                  rw [hsp] at hh
                  by_cases h5 : trimQuotes value = c
                  · simp [h5] at hh
                    exact ihn rest true false fa hlen2 hh a ha
                  · simp [h5] at hh
            · rw [if_neg h3] at hh
              cases hs : sanitizeLoop c rest auth false with
              | run fa2 =>
                rw [hs] at hh
                cases hh
                rcases List.mem_cons.mp ha with rfl | ha2
                · exact ⟨h1, h2⟩
                · exact ihn rest auth false fa2 hlen2 hs a ha2
              | panic =>
                rw [hs] at hh
                simp at hh
              | empty =>
                rw [hs] at hh
                simp at hh

theorem runKubectl_decomp (l mid r : List GoStr) (clusterName v : GoStr) (auth : Bool)
    (hl : ∀ a ∈ l, goHasPref a ClusterFlag = false ∧ a ≠ [])
    (hr : ∀ a ∈ r, goHasPref a ClusterFlag = false ∧ a ≠ [])
    (hv : v ≠ [])
    (hmid : mid = [ClusterFlagEq ++ v] ∨ mid = [ClusterFlag, v]) :
    runKubectlDecision (l ++ mid ++ r) clusterName auth =
      if trimQuotes v ≠ clusterName then .empty
      else .run (gs "-n" :: gs "default" :: (keepArgs l ++ keepArgs r)) := by
  have hnil : ∀ a ∈ (l ++ mid ++ r), a ≠ [] := by
    intro a ha
    rcases List.mem_append.mp ha with ha2 | hr2
    · rcases List.mem_append.mp ha2 with hl2 | hm
      · exact (hl a hl2).2
      · rcases hmid with rfl | rfl
        · have ha3 : a = ClusterFlagEq ++ v := by simpa using hm
          subst ha3
          intro e
          rw [List.append_eq_nil] at e
          exact absurd e.1 (by decide)
        · have ha3 : a = ClusterFlag ∨ a = v := by simpa using hm
          rcases ha3 with rfl | rfl
          · decide
          · exact hv
    · exact (hr a hr2).2
  have hdd : deleteDoubleWhiteSpace (l ++ mid ++ r) = l ++ mid ++ r := ddws_of_nonempty _ hnil
  have hclean : ∀ a ∈ (gs "-n" :: gs "default" :: l), goHasPref a ClusterFlag = false := by
    intro a ha
    rcases List.mem_cons.mp ha with rfl | ha
    · decide
    rcases List.mem_cons.mp ha with rfl | ha
    · decide
    · exact (hl a ha).1
  have hlist : gs "-n" :: gs "default" :: (l ++ mid ++ r) =
      (gs "-n" :: gs "default" :: l) ++ (mid ++ r) := by
    simp [List.append_assoc]
  have hkeep : keepArgs (gs "-n" :: gs "default" :: l) =
      gs "-n" :: gs "default" :: keepArgs l := by
    rw [keepArgs_cons_keep _ _ (by decide) (by decide),
      keepArgs_cons_keep _ _ (by decide) (by decide)]
  have hmidr : sanitizeLoop clusterName (mid ++ r) auth false =
      if trimQuotes v ≠ clusterName then .empty else .run (keepArgs r) := by
    rcases hmid with rfl | rfl
    · have he : ([ClusterFlagEq ++ v] ++ r) = (ClusterFlagEq ++ v) :: r := rfl
      rw [he, sanitizeLoop_eqflag_cons]
      by_cases ht : trimQuotes v ≠ clusterName
      · rw [if_pos ht, if_pos ht]
      · rw [if_neg ht, if_neg ht,
          sanitizeLoop_clean_run clusterName r (fun a ha => (hr a ha).1)]
    · have he : ([ClusterFlag, v] ++ r) = ClusterFlag :: v :: r := rfl
      rw [he, sanitizeLoop_flag_cons]
      by_cases ht : trimQuotes v ≠ clusterName
      · rw [if_pos ht, if_pos ht]
      · rw [if_neg ht, if_neg ht,
          sanitizeLoop_clean_run clusterName r (fun a ha => (hr a ha).1)]
  rw [runKubectlDecision, hdd, hlist, sanitizeLoop_append_clean _ _ _ _ hclean, hmidr]
  by_cases ht : trimQuotes v ≠ clusterName
  · rw [if_pos ht, if_pos ht]
  · rw [if_neg ht, if_neg ht]
    simp [hkeep]

/-- C2 (amended): a cluster-scope flag in either form authorizes and is
consumed when its value — after trimming all surrounding quote characters,
as the code's `TrimFunc` does — equals the local identity, with `-n default`
prepended; on a mismatch the decision is the silent empty response and the
process runner is never invoked. -/
theorem cluster_flag_scoping (l r mid : List GoStr) (clusterName v : GoStr) (auth : Bool)
    (hl : ∀ a ∈ l, goHasPref a ClusterFlag = false ∧ a ≠ [])
    (hr : ∀ a ∈ r, goHasPref a ClusterFlag = false ∧ a ≠ [])
    (hv : v ≠ [])
    (hmid : mid = [ClusterFlagEq ++ v] ∨ mid = [ClusterFlag, v]) :
    (trimQuotes v = clusterName →
      runKubectlDecision (l ++ mid ++ r) clusterName auth =
        .run (gs "-n" :: gs "default" :: (keepArgs l ++ keepArgs r))) ∧
    (trimQuotes v ≠ clusterName →
      runKubectlDecision (l ++ mid ++ r) clusterName auth = .empty) := by
  have h := runKubectl_decomp l mid r clusterName v auth hl hr hv hmid
  constructor
  · intro ht
    rw [h, if_neg (by simp [ht])]
  · intro ht
    rw [h, if_pos ht]

theorem cluster_flag_scoping_witness :
    trimQuotes (gs "prod") = gs "prod" ∧
    runKubectlDecision ([gs "get", gs "pods"] ++ [ClusterFlagEq ++ gs "prod"] ++ [])
        (gs "prod") false =
      .run (gs "-n" :: gs "default" :: (keepArgs [gs "get", gs "pods"] ++ keepArgs [])) :=
  ⟨by decide,
    (cluster_flag_scoping [gs "get", gs "pods"] [] [ClusterFlagEq ++ gs "prod"]
      (gs "prod") (gs "prod") false (by decide) (by decide) (by decide)
      (Or.inl rfl)).1 (by decide)⟩

/-- C2 counterexample: the claim compares the flag value after trimming ONE
layer of surrounding quotes; the code trims every surrounding quote
character.  With value `''prod''` and local identity `prod` the claim's
reading demands the silent empty response, but the code forwards the
command to the runner. -/
theorem cluster_flag_quote_trim_counterexample :
    trimOneQuoteLayer_spec (gs "''prod''") ≠ gs "prod" ∧
    trimQuotes (gs "''prod''") = gs "prod" ∧
    runKubectlDecision [gs "get", gs "pods", gs "--cluster-name=''prod''"] (gs "prod") false =
      .run [gs "-n", gs "default", gs "get", gs "pods"] := by
  decide

/-- C3 (amended): cluster-mismatch and no-authorization denials are the
silent empty response with the runner never invoked; the passthrough-disabled
case instead yields the fixed explicit disabled message (see the
counterexample). -/
theorem authorization_denied_silent :
    (∀ (l r mid : List GoStr) (clusterName v : GoStr) (auth : Bool),
      (∀ a ∈ l, goHasPref a ClusterFlag = false ∧ a ≠ []) →
      (∀ a ∈ r, goHasPref a ClusterFlag = false ∧ a ≠ []) →
      v ≠ [] →
      (mid = [ClusterFlagEq ++ v] ∨ mid = [ClusterFlag, v]) →
      trimQuotes v ≠ clusterName →
      runKubectlDecision (l ++ mid ++ r) clusterName auth = .empty) ∧
    (∀ (args : List GoStr) (clusterName : GoStr),
      (∀ a ∈ args, goHasPref a ClusterFlag = false) →
      runKubectlDecision args clusterName false = .empty) := by
  constructor
  · intro l r mid c v auth hl hr hv hmid ht
    rw [runKubectl_decomp l mid r c v auth hl hr hv hmid, if_pos ht]
  · intro args c h
    rw [runKubectlDecision]
    apply sanitizeLoop_clean_unauth
    intro a ha
    rcases List.mem_cons.mp ha with rfl | ha
    · decide
    rcases List.mem_cons.mp ha with rfl | ha
    · decide
    · simp only [deleteDoubleWhiteSpace] at ha
      exact h a (List.mem_of_mem_filter ha)

theorem authorization_denied_silent_witness :
    trimQuotes (gs "prod") ≠ gs "staging" ∧
    runKubectlDecision ([gs "get", gs "pods"] ++ [ClusterFlagEq ++ gs "prod"] ++ [])
        (gs "staging") true = .empty ∧
    runKubectlDecision [gs "get", gs "pods"] (gs "prod") false = .empty :=
  ⟨by decide,
    authorization_denied_silent.1 [gs "get", gs "pods"] [] [ClusterFlagEq ++ gs "prod"]
      (gs "staging") (gs "prod") true (by decide) (by decide) (by decide) (Or.inl rfl)
      (by decide),
    authorization_denied_silent.2 [gs "get", gs "pods"] (gs "prod") (by decide)⟩

/-- C5 (amended): every argument sequence that reaches the process runner is
free of the exact short forms `-f` and `-w` and of any token carrying the
long form `--follow`/`--watch` as a prefix (hence with or without `=value`);
the short forms with an `=value` suffix are NOT stripped (see the
counterexample). -/
theorem forwarded_args_no_follow_watch (args : List GoStr) (clusterName : GoStr)
    (isAuthChannel : Bool) (fa : List GoStr)
    (h : runKubectlDecision args clusterName isAuthChannel = .run fa) :
    ∀ a ∈ fa, a ≠ AbbrFollowFlag ∧ goHasPref a FollowFlag = false ∧
              a ≠ AbbrWatchFlag ∧ goHasPref a WatchFlag = false := by
  rw [runKubectlDecision] at h
  have h2 := sanitizeLoop_run_clean_aux clusterName
    (gs "-n" :: gs "default" :: deleteDoubleWhiteSpace args).length
    (gs "-n" :: gs "default" :: deleteDoubleWhiteSpace args) isAuthChannel false fa le_rfl h
  intro a ha
  have h3 := h2 a ha
  push_neg at h3
  refine ⟨h3.1.1, ?_, h3.2.1, ?_⟩
  · simpa using h3.1.2
  · simpa using h3.2.2

theorem forwarded_args_no_follow_watch_witness :
    runKubectlDecision [gs "logs", gs "pod1", gs "-f", gs "--cluster-name=prod"]
        (gs "prod") true = .run [gs "-n", gs "default", gs "logs", gs "pod1"] ∧
    ∀ a ∈ [gs "-n", gs "default", gs "logs", gs "pod1"],
      a ≠ AbbrFollowFlag ∧ goHasPref a FollowFlag = false ∧
      a ≠ AbbrWatchFlag ∧ goHasPref a WatchFlag = false :=
  ⟨by decide,
    forwarded_args_no_follow_watch [gs "logs", gs "pod1", gs "-f", gs "--cluster-name=prod"]
      (gs "prod") true [gs "-n", gs "default", gs "logs", gs "pod1"] (by decide)⟩

/-- A streaming/follow flag as claim C5 words it: short or long form, with
or without an `=value` suffix. -/
def isFollowFlagSpec (a : GoStr) : Bool :=
  decide (a = gs "-f") || goHasPref a (gs "-f=") ||
  decide (a = gs "--follow") || goHasPref a (gs "--follow=")

/-- C5 counterexample: the short follow form with an `=value` suffix is not
stripped and reaches the runner. -/
theorem short_follow_eq_value_forwarded :
    isFollowFlagSpec (gs "-f=true") = true ∧
    runKubectlDecision [gs "logs", gs "pod1", gs "-f=true", gs "--cluster-name=prod"]
        (gs "prod") true =
      .run [gs "-n", gs "default", gs "logs", gs "pod1", gs "-f=true"] := by
  decide

/-- C1 (code bug): `Execute` reads `args[0]` of the token list of the
message, which is empty for an empty or whitespace-only message — an
out-of-range index, i.e. a runtime panic (`none`); a token that begins with
`--cluster-name` but is neither exactly `--cluster-name` nor contains
`--cluster-name=` drives `SplitAfterN(...)[1]` out of range the same way. -/
theorem execute_panics_on_empty_message :
    ExecuteD ⟨gs "", true, gs "prod", gs "ch", true⟩ ⟨true, []⟩ = none ∧
    ExecuteD ⟨gs "   ", true, gs "prod", gs "ch", true⟩ ⟨true, []⟩ = none ∧
    ExecuteD ⟨gs "get --cluster-namex", true, gs "prod", gs "ch", true⟩ ⟨true, []⟩ = none := by
  decide

/-- C3 counterexample: with passthrough globally disabled the response is
the fixed explicit "not permitted" message, not the empty string the claim
demands for that denial case. -/
theorem kubectl_disabled_not_silent :
    ExecuteD ⟨gs "get pods", false, gs "prod", gs "ch", true⟩ ⟨true, []⟩ =
      some (.text (kubectlDisabledMsg (gs "prod")), ⟨true, []⟩) ∧
    kubectlDisabledMsg (gs "prod") ≠ gs "" := by
  decide

/-- C4: a cluster-command verb with passthrough globally disabled yields the
fixed disabled message immediately — no sanitization, no runner, regardless
of channel pre-authorization and of the remaining tokens. -/
theorem kubectl_globally_disabled_message (e : DefaultExecutor) (st : GlobalState)
    (a0 : GoStr) (rest : List GoStr)
    (hf : fields e.Message = a0 :: rest)
    (hk : validKubectlCommands a0 = true)
    (hallow : e.AllowKubectl = false) :
    ExecuteD e st = some (.text (kubectlDisabledMsg e.ClusterName), st) := by
  rw [ExecuteD, hf]
  simp [hk, hallow]

theorem kubectl_globally_disabled_message_witness :
    fields (gs "get pods --cluster-name=prod") = [gs "get", gs "pods", gs "--cluster-name=prod"] ∧
    validKubectlCommands (gs "get") = true ∧
    ExecuteD ⟨gs "get pods --cluster-name=prod", false, gs "prod", gs "ch", false⟩ ⟨true, []⟩ =
      some (.text (kubectlDisabledMsg (gs "prod")), ⟨true, []⟩) :=
  ⟨by decide, by decide,
    kubectl_globally_disabled_message ⟨gs "get pods --cluster-name=prod", false, gs "prod", gs "ch", false⟩
      ⟨true, []⟩ (gs "get") [gs "pods", gs "--cluster-name=prod"] (by decide) (by decide) rfl⟩

/-- C9: a first token outside all five verb allowlists yields the fixed
unsupported-command message on a pre-authorized channel and the empty string
otherwise. -/
theorem unknown_verb_response (e : DefaultExecutor) (st : GlobalState)
    (a0 : GoStr) (rest : List GoStr)
    (hf : fields e.Message = a0 :: rest)
    (h1 : validKubectlCommands a0 = false)
    (h2 : validNotifierCommand a0 = false)
    (h3 : validPingCommand a0 = false)
    (h4 : validVersionCommand a0 = false)
    (h5 : validFilterCommand a0 = false) :
    (e.IsAuthChannel = true → ExecuteD e st = some (.text unsupportedCmdMsg, st)) ∧
    (e.IsAuthChannel = false → ExecuteD e st = some (.text (gs ""), st)) := by
  constructor <;> intro hauth <;> rw [ExecuteD, hf] <;> simp [h1, h2, h3, h4, h5, hauth]

theorem unknown_verb_response_witness :
    fields (gs "hello world") = [gs "hello", gs "world"] ∧
    ExecuteD ⟨gs "hello world", true, gs "prod", gs "ch", true⟩ ⟨true, []⟩ =
      some (.text unsupportedCmdMsg, ⟨true, []⟩) :=
  ⟨by decide,
    (unknown_verb_response ⟨gs "hello world", true, gs "prod", gs "ch", true⟩ ⟨true, []⟩
      (gs "hello") [gs "world"] (by decide) (by decide) (by decide) (by decide) (by decide)
      (by decide)).1 rfl⟩

/-- C10: notifier-toggle and filter-admin commands from a channel that is
not pre-authorized return the empty string and leave the shared state
(notifier flag and filter registry) unchanged. -/
theorem unauthorized_admin_commands_silent (e : DefaultExecutor) (st : GlobalState)
    (a0 : GoStr) (rest : List GoStr)
    (hf : fields e.Message = a0 :: rest)
    (hv : validNotifierCommand a0 = true ∨ validFilterCommand a0 = true)
    (hauth : e.IsAuthChannel = false) :
    ExecuteD e st = some (.text (gs ""), st) := by
  rcases hv with hv | hv
  · have ha0 : a0 = gs "notifier" := of_decide_eq_true hv
    subst ha0
    rw [ExecuteD, hf]
    have hk : validKubectlCommands (gs "notifier") = false := by decide
    have hn : validNotifierCommand (gs "notifier") = true := by decide
    simp [hk, hn, runNotifierCommand, hauth]
  · have ha0 : a0 = gs "filters" := of_decide_eq_true hv
    subst ha0
    rw [ExecuteD, hf]
    have hk : validKubectlCommands (gs "filters") = false := by decide
    have hn : validNotifierCommand (gs "filters") = false := by decide
    have hp : validPingCommand (gs "filters") = false := by decide
    have hver : validVersionCommand (gs "filters") = false := by decide
    have hfc : validFilterCommand (gs "filters") = true := by decide
    simp [hk, hn, hp, hver, hfc, runFilterCommand, hauth]

theorem unauthorized_admin_commands_silent_witness :
    fields (gs "notifier stop") = [gs "notifier", gs "stop"] ∧
    validNotifierCommand (gs "notifier") = true ∧
    ExecuteD ⟨gs "notifier stop", true, gs "prod", gs "ch", false⟩ ⟨true, []⟩ =
      some (.text (gs ""), ⟨true, []⟩) :=
  ⟨by decide, by decide,
    unauthorized_admin_commands_silent ⟨gs "notifier stop", true, gs "prod", gs "ch", false⟩
      ⟨true, []⟩ (gs "notifier") [gs "stop"] (by decide) (Or.inl (by decide)) rfl⟩

theorem foldl_rec_append (f : Container → GoStr) (p : Container → Bool)
    (l : List Container) (e : Event) :
    l.foldl
      (fun e c => if p c then { e with Recommendations := e.Recommendations ++ [f c] } else e)
      e =
    { e with Recommendations := e.Recommendations ++ (l.filter p).map f } := by
  induction l generalizing e with
  | nil => simp
  | cons c t ih =>
    by_cases hc : p c
    · simp only [List.foldl_cons, if_pos hc, List.filter_cons_of_pos hc, List.map_cons]
      rw [ih]
      simp [List.append_assoc]
    · simp only [List.foldl_cons, if_neg hc, List.filter_cons_of_neg hc]
      exact ih e

/-- C6: on a Pod create event with a Pod object, the image-tag filter appends
exactly one recommendation per offending init-container and per offending
container (no tag, or tag literally `latest`), in scan order, and changes no
other event field; on a non-Pod kind, a non-create type, or a non-Pod object
it is the identity. -/
theorem image_tag_checker_characterization (object : K8sObject) (event : Event) :
    ((event.Kind = gs "Pod" ∧ event.EvType = EventKindType.create) →
      ∀ p, object = K8sObject.pod p →
        ImageTagCheckerRun object event =
          { event with Recommendations := event.Recommendations
              ++ ((p.Spec.InitContainers.filter fun c => latestTagIssue c.Image).map
                    initContainerRec)
              ++ ((p.Spec.Containers.filter fun c => latestTagIssue c.Image).map
                    containerRec) }) ∧
    ((event.Kind ≠ gs "Pod" ∨ event.EvType ≠ EventKindType.create ∨ object = K8sObject.other) →
      ImageTagCheckerRun object event = event) := by
  constructor
  · rintro ⟨hk, ht⟩ p rfl
    rw [ImageTagCheckerRun.eq_def, if_neg (by simp [hk, ht])]
    simp only [foldl_rec_append]
  · intro h
    rcases h with h | h | h
    · rw [ImageTagCheckerRun.eq_def, if_pos (Or.inl h)]
    · rw [ImageTagCheckerRun.eq_def, if_pos (Or.inr h)]
    · subst h
      by_cases hg : event.Kind ≠ gs "Pod" ∨ event.EvType ≠ EventKindType.create
      · rw [ImageTagCheckerRun.eq_def, if_pos hg]
      · rw [ImageTagCheckerRun.eq_def, if_neg hg]

/-- The Pod of the spec's image-tag example. -/
def nginxPod : Pod :=
  ⟨⟨[], [⟨gs "c1", gs "nginx"⟩, ⟨gs "c2", gs "nginx:1.14"⟩, ⟨gs "c3", gs "nginx:latest"⟩]⟩⟩

/-- The Pod create event the image-tag example starts from. -/
def nginxEvent : Event :=
  ⟨gs "Pod", gs "nginx-pod", gs "default", gs "prod", gs "", gs "Pod Created", gs "", gs "",
    [], [], [], 0, EventKindType.create, EventLevel.info⟩

theorem image_tag_checker_witness :
    (nginxEvent.Kind = gs "Pod" ∧ nginxEvent.EvType = EventKindType.create) ∧
    ImageTagCheckerRun (K8sObject.pod nginxPod) nginxEvent =
      { nginxEvent with Recommendations :=
          [gs ":latest tag used in image 'nginx' of Container 'c1' should be avoided.\n",
           gs ":latest tag used in image 'nginx:latest' of Container 'c3' should be avoided.\n"] } := by
  refine ⟨⟨rfl, rfl⟩, ?_⟩
  have h := (image_tag_checker_characterization (K8sObject.pod nginxPod) nginxEvent).1
    ⟨rfl, rfl⟩ nginxPod rfl
  rw [h]
  decide

/-- The concatenation of the rows of a registry listing, one per entry. -/
def concatRows : List FilterEntry → GoStr
  | [] => []
  | f :: t => filterRow f ++ concatRows t

theorem foldl_append_row (reg : List FilterEntry) (buf : GoStr) :
    reg.foldl (fun b f => b ++ filterRow f) buf = buf ++ concatRows reg := by
  induction reg generalizing buf with
  | nil => simp [concatRows]
  | cons f t ih => simp [concatRows, List.foldl_cons, ih, List.append_assoc]

theorem count_filterRow (f : FilterEntry)
    (hn : '\n' ∉ f.name) (hd : '\n' ∉ f.description) :
    (filterRow f).count '\n' = 1 := by
  have h1 : f.name.count '\n' = 0 := List.count_eq_zero.mpr hn
  have h2 : f.description.count '\n' = 0 := List.count_eq_zero.mpr hd
  have h3 : (boolStr f.enabled).count '\n' = 0 := by
    cases f.enabled <;> decide
  simp [filterRow, List.count_append, h1, h2, h3]
  decide

theorem count_concatRows (reg : List FilterEntry)
    (h : ∀ f ∈ reg, '\n' ∉ f.name ∧ '\n' ∉ f.description) :
    (concatRows reg).count '\n' = reg.length := by
  induction reg with
  | nil => decide
  | cons f t ih =>
    have hf := h f (List.mem_cons_self f t)
    have ht := ih fun x hx => h x (List.mem_cons_of_mem f hx)
    simp only [concatRows, List.count_append, List.length_cons,
      count_filterRow f hf.1 hf.2, ht]
    omega

/-- C7 (amended): the filter listing is the header followed by exactly one
row per registered filter — identity, enabled state, description — in the
order the registry yields them (registration order in this model); it is NOT
sorted by identity (see the counterexample). -/
theorem filters_list_rows (reg : List FilterEntry)
    (h : ∀ f ∈ reg, '\n' ∉ f.name ∧ '\n' ∉ f.description) :
    makeFiltersList reg = filtersHeader ++ concatRows reg ∧
    (makeFiltersList reg).count '\n' = reg.length + 1 := by
  have hrows : makeFiltersList reg = filtersHeader ++ concatRows reg :=
    foldl_append_row reg filtersHeader
  refine ⟨hrows, ?_⟩
  rw [hrows, List.count_append, count_concatRows reg h,
    show filtersHeader.count '\n' = 1 from by decide]
  omega

/-- The image-tag filter's registry entry, as registered in the sources. -/
def ftImageTag : FilterEntry :=
  ⟨gs "ImageTagChecker", true,
    gs "Checks and adds recommendation if 'latest' image tag is used for container image."⟩

/-- A second registry entry whose identity sorts before `ImageTagChecker`. -/
def ftCrashLoop : FilterEntry :=
  ⟨gs "CrashLoopChecker", true, gs "Checks for crash looping containers."⟩

theorem filters_list_rows_witness :
    (∀ f ∈ [ftImageTag, ftCrashLoop], '\n' ∉ f.name ∧ '\n' ∉ f.description) ∧
    (makeFiltersList [ftImageTag, ftCrashLoop] =
        filtersHeader ++ concatRows [ftImageTag, ftCrashLoop] ∧
      (makeFiltersList [ftImageTag, ftCrashLoop]).count '\n' = 2 + 1) :=
  ⟨by decide, filters_list_rows [ftImageTag, ftCrashLoop] (by decide)⟩

/-- Lexicographic comparison of identities, for the sorted listing the claim
describes. -/
def strLe : GoStr → GoStr → Bool
  | [], _ => true
  | _ :: _, [] => false
  | a :: s, b :: t => if a = b then strLe s t else decide (a < b)

/-- Insertion into an identity-sorted registry. -/
def insertByName (f : FilterEntry) : List FilterEntry → List FilterEntry
  | [] => [f]
  | g :: t => if strLe f.name g.name then f :: g :: t else g :: insertByName f t

/-- Insertion sort of a registry by identity. -/
def sortByName : List FilterEntry → List FilterEntry
  | [] => []
  | f :: t => insertByName f (sortByName t)

/-- The filter-admin listing as claim C7 words it: rows sorted by filter
identity, independently of registration order. -/
def makeFiltersListSorted_spec (reg : List FilterEntry) : GoStr :=
  makeFiltersList (sortByName reg)

/-- C7 counterexample: with registration order `ImageTagChecker` before
`AnnotationChecker`, the source listing keeps registration order, so it
differs from the identity-sorted listing the claim asserts, and listing the
same registry registered in the other order gives a different output. -/
theorem filters_list_not_sorted :
    sortByName [ftImageTag, ftCrashLoop] = [ftCrashLoop, ftImageTag] ∧
    makeFiltersList [ftImageTag, ftCrashLoop] ≠
      makeFiltersListSorted_spec [ftImageTag, ftCrashLoop] ∧
    makeFiltersList [ftImageTag, ftCrashLoop] ≠
      makeFiltersList [ftCrashLoop, ftImageTag] := by
  decide

/-- The configuration used in the C8 counterexample: secrets that collide
with schema words that survive redaction. -/
def c8cfg : Config := ⟨⟨⟨gs "slack", gs "general"⟩, ⟨gs "password", gs "es.local"⟩⟩⟩

/-- C8 counterexample: redaction zeroes both fields, yet the rendered output
can still contain the literal secret values when they coincide with text of
the redacted rendering (here the schema keys `slack` and `password`), so
"the output text never contains either literal secret value" fails as a
universal statement. -/
theorem showconfig_contains_schema_secret :
    c8cfg.Communications.Slack.Token = gs "slack" ∧
    c8cfg.Communications.Slack.Token ≠ [] ∧
    c8cfg.Communications.ElasticSearch.Password = gs "password" ∧
    c8cfg.Communications.ElasticSearch.Password ≠ [] ∧
    containsSub (showControllerConfig c8cfg) c8cfg.Communications.Slack.Token = true ∧
    containsSub (showControllerConfig c8cfg) c8cfg.Communications.ElasticSearch.Password = true := by
  decide

/-- C8 (amended): the show-config handler zeroes the chat auth token and the
search-backend password before rendering, so its output is the rendering of
the redacted document and is independent of the two stored secret values;
hence a secret can occur in the output only if it already occurs in the
secret-free rendering. -/
theorem showconfig_secret_independence (c : Config) (t1 p1 t2 p2 : GoStr) :
    showControllerConfig (setSecrets c t1 p1) = marshalConfig (setSecrets c [] []) ∧
    showControllerConfig (setSecrets c t1 p1) = showControllerConfig (setSecrets c t2 p2) :=
  ⟨rfl, rfl⟩
